import Mathlib

/-!
Verification of the multi-supplier BOM parts-sourcing engine.

This file gives a shallow embedding, in Lean 4, of the core logic of the
repository: the supplier adapters of `src/lib/parts-search.ts` (JavaScript
value coercions, payload parsing, footprint normalization, search
post-processing, network-failure handling) and the BOM pipeline of
`src/app/api/bom-upload/route.ts` (component-type inference, footprint
extraction, row processing, part scoring, best-part selection, merge-back).
Theorems at the end of the file settle the specification claims against
these definitions.
-/

namespace BomSourcing

/-! ## A model of dynamically-typed JavaScript values

Upstream API payloads are `any`-typed in the source.  `JSVal` models the
JSON-like values the adapters receive; `null` also stands for `undefined`
and for an absent object field, which the adapters never distinguish.
-/

inductive JSVal where
  | null : JSVal
  | bool : Bool → JSVal
  | num : ℚ → JSVal
  | str : String → JSVal
  | arr : List JSVal → JSVal
  | obj : List (String × JSVal) → JSVal
deriving Inhabited

/-- JavaScript truthiness of a value. -/
def truthy : JSVal → Bool
  | .null => false
  | .bool b => b
  | .num q => q ≠ 0
  | .str s => s ≠ ""
  | .arr _ => true
  | .obj _ => true

/-- `a || b` in JavaScript: the first operand when truthy, else the second. -/
def jsOr (a b : JSVal) : JSVal := if truthy a then a else b

/-- Property access `v.f`: yields `null` (for `undefined`) when the value is
not an object or lacks the field; this also models `v?.f` since our `null`
covers `undefined`. -/
def getField : JSVal → String → JSVal
  | .obj fields, name =>
    match fields.find? (fun kv => kv.1 = name) with
    | some kv => kv.2
    | none => .null
  | _, _ => .null

mutual

/-- The JavaScript `String(v)` coercion.  (Formatting of non-integral
numbers is approximated, since `Rat` has no float representation; no
theorem below depends on that branch.) -/
def jsToString : JSVal → String
  | .null => "null"
  | .bool b => if b then "true" else "false"
  | .num q => if q.den = 1 then toString q.num else toString q.num ++ "/" ++ toString q.den
  | .str s => s
  | .arr xs => String.intercalate "," (jsToStringList xs)
  | .obj _ => "[object Object]"

def jsToStringList : List JSVal → List String
  | [] => []
  | x :: xs => jsToString x :: jsToStringList xs

end

/-- Reading a number out of a field whose TypeScript type is `number`
(e.g. `QuantityAvailable`, `UnitPrice`): numeric values pass through
unchanged — in particular negative and fractional values. -/
def asNumQ : JSVal → ℚ
  | .num q => q
  | _ => 0

/-- `.replace(/,/g, '')`. -/
def removeCommas (s : String) : String :=
  String.mk (s.toList.filter (fun c => c ≠ ','))

/-- Leading run of decimal digits. -/
def takeDigits (l : List Char) : List Char := l.takeWhile Char.isDigit

/-- Numeric value of a digit string. -/
def digitsToNat (l : List Char) : ℕ :=
  l.foldl (fun acc c => acc * 10 + (c.toNat - '0'.toNat)) 0

/-- Hex digit test for `parseInt`'s no-radix `0x` form. -/
def isHexDigit (c : Char) : Bool :=
  c.isDigit || ('a' ≤ c && c ≤ 'f') || ('A' ≤ c && c ≤ 'F')

/-- Numeric value of a hex digit string. -/
def hexDigitsToNat (l : List Char) : ℕ :=
  l.foldl (fun acc c =>
    acc * 16 + (if c.isDigit then c.toNat - '0'.toNat
      else if 'a' ≤ c then c.toNat - 'a'.toNat + 10
      else c.toNat - 'A'.toNat + 10)) 0

/-- JavaScript `parseInt(s)` with no radix argument, as called by the
source: skip leading whitespace, optional sign, then either a `0x`/`0X`
prefix followed by the longest hex-digit run or the longest decimal-digit
run; `none` models `NaN`. -/
def parseIntJS (s : String) : Option ℤ :=
  let l := s.toList.dropWhile Char.isWhitespace
  let (neg, l) := match l with
    | '-' :: rest => (true, rest)
    | '+' :: rest => (false, rest)
    | _ => (false, l)
  match l with
  | '0' :: c :: rest =>
    if c = 'x' ∨ c = 'X' then
      let hs := rest.takeWhile isHexDigit
      if hs = [] then none
      else some (if neg then -(hexDigitsToNat hs : ℤ) else (hexDigitsToNat hs : ℤ))
    else
      let ds := takeDigits ('0' :: c :: rest)
      some (if neg then -(digitsToNat ds : ℤ) else (digitsToNat ds : ℤ))
  | _ =>
    let ds := takeDigits l
    if ds = [] then none
    else some (if neg then -(digitsToNat ds : ℤ) else (digitsToNat ds : ℤ))

/-- JavaScript `parseFloat(s)`: optional sign, digits, optional fractional
part, optional exponent; `none` models `NaN`. -/
def parseFloatJS (s : String) : Option ℚ :=
  let l := s.toList.dropWhile Char.isWhitespace
  let (sign, l) : ℚ × List Char := match l with
    | '-' :: rest => (-1, rest)
    | '+' :: rest => (1, rest)
    | _ => (1, l)
  let intPart := takeDigits l
  let l₂ := l.drop intPart.length
  let (fracPart, l₃) : List Char × List Char := match l₂ with
    | '.' :: rest => (takeDigits rest, rest.drop (takeDigits rest).length)
    | _ => ([], l₂)
  if intPart = [] ∧ fracPart = [] then none
  else
    let mantissa : ℚ :=
      (digitsToNat intPart : ℚ) + (digitsToNat fracPart : ℚ) / (10 ^ fracPart.length : ℕ)
    let expo : ℤ := match l₃ with
      | 'e' :: rest => parseExponent rest
      | 'E' :: rest => parseExponent rest
      | _ => 0
    let scale : ℚ := if 0 ≤ expo then ((10 ^ expo.toNat : ℕ) : ℚ)
      else 1 / ((10 ^ (-expo).toNat : ℕ) : ℚ)
    some (sign * mantissa * scale)
where
  parseExponent (l : List Char) : ℤ :=
    let (eneg, l') := match l with
      | '-' :: rest => (true, rest)
      | '+' :: rest => (false, rest)
      | _ => (false, l)
    let ds := takeDigits l'
    if ds = [] then 0 else if eneg then -(digitsToNat ds : ℤ) else (digitsToNat ds : ℤ)

/-! ## The normalized Part record (`PartSearchResult` in `parts-search.ts`)

Optional string fields (`lcscPart`, `image`, `package`) are modeled as
strings with `""` for absent, matching the adapters (which always assign
them, possibly `''`) and the scorers (which test JavaScript truthiness,
i.e. non-emptiness). -/

structure PartSearchResult where
  supplier : String := ""
  partNumber : String := ""
  manufacturer : String := ""
  manufacturerPartNumber : String := ""
  description : String := ""
  value : String := ""
  footprint : String := ""
  stock : ℚ := 0
  price : ℚ := 0
  currency : String := "USD"
  url : String := ""
  datasheet : String := ""
  lcscPart : String := ""
  image : String := ""
  package : String := ""
  specifications : List (String × String) := []
deriving DecidableEq, Inhabited

/-- `SearchParams` in `parts-search.ts`; absent optional strings are `""`,
absent `limit` is `0` (both falsy, matching the `||` defaults). -/
structure SearchParams where
  value : String := ""
  footprint : String := ""
  componentType : String := ""
  manufacturer : String := ""
  manufacturerPartNumber : String := ""
  limit : ℕ := 0
deriving DecidableEq, Inhabited

/-! ## A stable sort modeling `Array.prototype.sort`

`le x y` means "the comparator allows `x` before `y`" (comparator value
`≤ 0`).  For a consistent comparator, any stable sort produces the same
list as the JavaScript engine's; we use stable insertion sort. -/

/-- Insert `x` (an element earlier in the original list) into the sorted
list `l` of later elements: `x` goes before the first `y` it may precede. -/
def insertBy (le : α → α → Bool) (x : α) : List α → List α
  | [] => [x]
  | y :: ys => if le x y then x :: y :: ys else y :: insertBy le x ys

/-- Stable sort by the comparator-induced order `le`. -/
def sortBy (le : α → α → Bool) : List α → List α
  | [] => []
  | x :: xs => insertBy le x (sortBy le xs)

theorem mem_insertBy (le : α → α → Bool) (x : α) (l : List α) (a : α) :
    a ∈ insertBy le x l ↔ a = x ∨ a ∈ l := by
  induction l with
  | nil => simp [insertBy]
  | cons y ys ih =>
    simp only [insertBy]
    split
    · simp [List.mem_cons]
    · simp [List.mem_cons, ih]
      tauto

theorem mem_sortBy (le : α → α → Bool) (l : List α) (a : α) :
    a ∈ sortBy le l ↔ a ∈ l := by
  induction l with
  | nil => simp [sortBy]
  | cons x xs ih => simp [sortBy, mem_insertBy, ih]

theorem length_insertBy (le : α → α → Bool) (x : α) (l : List α) :
    (insertBy le x l).length = l.length + 1 := by
  induction l with
  | nil => simp [insertBy]
  | cons y ys ih =>
    simp only [insertBy]
    split <;> simp [ih]

theorem length_sortBy (le : α → α → Bool) (l : List α) :
    (sortBy le l).length = l.length := by
  induction l with
  | nil => simp [sortBy]
  | cons x xs ih => simp [sortBy, length_insertBy, ih]

theorem pairwise_insertBy (le : α → α → Bool)
    (htot : ∀ a b, le a b = false → le b a = true)
    (htrans : ∀ a b c, le a b = true → le b c = true → le a c = true)
    (x : α) (l : List α) (hl : l.Pairwise (fun a b => le a b = true)) :
    (insertBy le x l).Pairwise (fun a b => le a b = true) := by
  induction l with
  | nil => simp [insertBy]
  | cons y ys ih =>
    rcases List.pairwise_cons.mp hl with ⟨hy, hys⟩
    simp only [insertBy]
    split
    · rename_i hxy
      refine List.pairwise_cons.mpr ⟨?_, hl⟩
      intro z hz
      rcases List.mem_cons.mp hz with rfl | hz
      · exact hxy
      · exact htrans x y z hxy (hy z hz)
    · rename_i hxy
      refine List.pairwise_cons.mpr ⟨?_, ih hys⟩
      intro z hz
      rcases (mem_insertBy le x ys z).mp hz with rfl | hz
      · exact htot z y (Bool.eq_false_iff.mpr hxy)
      · exact hy z hz

theorem pairwise_sortBy (le : α → α → Bool)
    (htot : ∀ a b, le a b = false → le b a = true)
    (htrans : ∀ a b c, le a b = true → le b c = true → le a c = true)
    (l : List α) :
    (sortBy le l).Pairwise (fun a b => le a b = true) := by
  induction l with
  | nil => simp [sortBy]
  | cons x xs ih => exact pairwise_insertBy le htot htrans x (sortBy le xs) ih

/-! ## Regex scanners used by the adapters and the BOM route -/

/-- JavaScript's `\w` character class. -/
def isWordChar (c : Char) : Bool := c.isAlphanum || c = '_'

/-- Does `\d{4}\b` match at the head of the list?  Returns the four digits. -/
def metricHere : List Char → Option (List Char)
  | a :: b :: c :: d :: rest =>
    if a.isDigit && b.isDigit && c.isDigit && d.isDigit &&
        (match rest with | [] => true | e :: _ => !isWordChar e) then
      some [a, b, c, d]
    else none
  | _ => none

/-- Leftmost match of `/\b(\d{4})\b/`: `prev` is the character before the
current position (`none` at the start of the string). -/
def findMetricAux : Option Char → List Char → Option (List Char)
  | _, [] => none
  | prev, c :: rest =>
    let boundary := match prev with | none => true | some p => !isWordChar p
    match if boundary then metricHere (c :: rest) else none with
    | some ds => some ds
    | none => findMetricAux (some c) rest

/-- `footprint.match(/\b(\d{4})\b/)`, returning the captured digits. -/
def findMetric (l : List Char) : Option (List Char) := findMetricAux none l

def lowerList (l : List Char) : List Char := l.map Char.toLower

/-- `String.prototype.includes`: does `pat` occur contiguously in `l`? -/
def containsSeq (pat : List Char) : List Char → Bool
  | [] => pat.isEmpty
  | l@(_ :: rest) => pat.isPrefixOf l || containsSeq pat rest

/-- The `footprintMap` table of `JLCPCBClient.normalizeFootprint` (each key
maps to itself in the source), in `Object.entries` enumeration order: the
array-index-like keys ("1206", "1210", "2010", "2512") are enumerated
first in ascending numeric order, then the leading-zero keys ("0402",
"0603", "0805") in object-literal insertion order. -/
def footprintPairs : List (String × String) :=
  [("1206", "1206"), ("1210", "1210"), ("2010", "2010"), ("2512", "2512"),
   ("0402", "0402"), ("0603", "0603"), ("0805", "0805")]

/-- `JLCPCBClient.normalizeFootprint` (`parts-search.ts:247`): first 4-digit
word-bounded token, else the first table key contained (case-insensitively)
in the input, else the input unchanged. -/
def normalizeFootprint (footprint : String) : String :=
  match findMetric footprint.toList with
  | some ds => String.mk ds
  | none =>
    match footprintPairs.find? (fun kv => containsSeq kv.1.toList (lowerList footprint.toList)) with
    | some kv => kv.2
    | none => footprint

/-! ## Supplier adapters (`parts-search.ts`)

Network effects are modeled by passing in the outcome of each `fetch` call:
the call may throw (transport error) or return a response with an `ok` flag
and a parsed JSON body.  A JavaScript exception inside a `try` block is an
`Option`/`Except` failure, caught by the embedded `catch`. -/

inductive FetchOutcome where
  | thrown : FetchOutcome
  | resp (ok : Bool) (body : JSVal) : FetchOutcome

/-- `String.prototype.trim`. -/
def jsTrim (s : String) : String :=
  String.mk (((s.toList.dropWhile Char.isWhitespace).reverse.dropWhile Char.isWhitespace).reverse)

/-- Keyword construction shared verbatim by `DigiKeyClient.search`
(lines 96–108) and `MouserClient.search` (lines 354–366). -/
def buildSearchKeyword (params : SearchParams) : String :=
  let keyword := params.value
  let keyword := if params.footprint ≠ "" then keyword ++ " " ++ params.footprint else keyword
  let keyword := if params.componentType ≠ "" then params.componentType ++ " " ++ keyword else keyword
  let keyword := if params.manufacturerPartNumber ≠ "" then params.manufacturerPartNumber else keyword
  jsTrim keyword

/-! ### JLCPCB / JLCSearch adapter -/

/-- `JLCPCBClient.parseComponent` (`parts-search.ts:274`). -/
def jlcpcbParseComponent (params : SearchParams) (comp : JSVal) : PartSearchResult :=
  let lcscPart : String :=
    if truthy (getField comp "lcsc") then
      let s := jsToString (getField comp "lcsc")
      if "C".toList.isPrefixOf s.toList then s else "C" ++ s
    else if truthy (getField comp "lcscCode") then jsToString (getField comp "lcscCode")
    else if truthy (getField comp "lcsc_id") then "C" ++ jsToString (getField comp "lcsc_id")
    else ""
  let stockValue := jsOr (jsOr (getField comp "stock") (getField comp "stockQty")) (getField comp "quantity")
  let stock : ℚ :=
    if truthy stockValue then
      match parseIntJS (removeCommas (jsToString stockValue)) with
      | some n => (n : ℚ)
      | none => 0
    else 0
  let priceValue := jsOr (getField comp "price") (getField comp "unit_price")
  let price : ℚ :=
    if truthy priceValue then
      match parseFloatJS (removeCommas (jsToString priceValue)) with
      | some q => q
      | none => 0
    else 0
  let manufacturer := jsToString (jsOr (getField comp "mfr")
    (jsOr (getField comp "manufacturer") (jsOr (getField comp "Manufacturer") (.str ""))))
  let description := jsToString (jsOr (getField comp "description")
    (jsOr (getField comp "Description") (.str "")))
  let pkg := jsToString (jsOr (getField comp "package")
    (jsOr (getField comp "Package") (jsOr (getField comp "footprint") (.str ""))))
  let partNumber := jsToString (jsOr (getField comp "mfrPartNo")
    (jsOr (getField comp "manufacturer_part_number") (.str "")))
  { supplier := "JLCPCB"
    partNumber := partNumber
    manufacturer := manufacturer
    manufacturerPartNumber := partNumber
    description := description
    value := params.value
    footprint := if pkg ≠ "" then pkg else params.footprint
    stock := stock
    price := price
    currency := "USD"
    url := if lcscPart ≠ "" then "https://jlcpcb.com/partdetail/" ++ lcscPart else "https://jlcpcb.com/"
    datasheet := jsToString (jsOr (getField comp "datasheet") (.str ""))
    lcscPart := lcscPart
    package := pkg
    image := jsToString (jsOr (getField comp "image") (.str "")) }

/-- Comparator order of `(a, b) => b.stock - a.stock` then `a.price - b.price`:
`a` may precede `b` iff the comparator is `≤ 0`. -/
def stockThenPriceLE (a b : PartSearchResult) : Bool :=
  if a.stock = b.stock then decide (a.price ≤ b.price) else decide (b.stock < a.stock)

/-- The result post-processing of `JLCPCBClient.search` (`parts-search.ts:229`):
parse every upstream component, drop candidates with neither a part number
nor an LCSC code, sort by descending stock then ascending price, truncate. -/
def jlcpcbProcessResults (params : SearchParams) (components : List JSVal) :
    List PartSearchResult :=
  let results := (components.map (jlcpcbParseComponent params)).filter
    (fun r => decide (r.partNumber ≠ "" ∨ r.lcscPart ≠ ""))
  (sortBy stockThenPriceLE results).take (if params.limit ≠ 0 then params.limit else 10)

/-- `JLCPCBClient.search` (`parts-search.ts:180`). -/
def jlcpcbSearch (fetch : FetchOutcome) (params : SearchParams) :
    List PartSearchResult × ℕ :=
  let searchTerm := params.value
  let searchTerm := if params.manufacturerPartNumber ≠ "" then params.manufacturerPartNumber else searchTerm
  let searchTerm := if params.manufacturer ≠ "" ∧ params.manufacturerPartNumber = "" then
      params.manufacturer ++ " " ++ searchTerm else searchTerm
  let searchTerm := jsTrim searchTerm
  if searchTerm = "" then ([], 0)
  else
    match fetch with
    | .thrown => ([], 1)
    | .resp ok body =>
      if !ok then ([], 1)
      else
        match jsOr (getField body "components") (.arr []) with
        | .arr xs => (jlcpcbProcessResults params xs, 1)
        | _ => ([], 1)

/-! ### Digi-Key adapter -/

/-- The fields of `DigiKeyClient` plus the clock (`Date.now()`). -/
structure DigiKeyClientState where
  clientId : String := ""
  clientSecret : String := ""
  accessToken : Option String := none
  tokenExpiry : ℚ := 0
  now : ℚ := 0

/-- `DigiKeyClient.isConfigured`. -/
def digiKeyIsConfigured (c : DigiKeyClientState) : Bool :=
  c.clientId ≠ "" && c.clientSecret ≠ ""

/-- `DigiKeyClient.getAccessToken`: result (or thrown error) together with
the number of network calls made. -/
def digiKeyGetAccessToken (c : DigiKeyClientState) (tokenFetch : FetchOutcome) :
    Except Unit String × ℕ :=
  if (match c.accessToken with | some _ => decide (c.now < c.tokenExpiry) | none => false) then
    (.ok (c.accessToken.getD ""), 0)
  else if !digiKeyIsConfigured c then (.error (), 0)
  else
    match tokenFetch with
    | .thrown => (.error (), 1)
    | .resp ok body =>
      if !ok then (.error (), 1)
      else (.ok (jsToString (getField body "access_token")), 1)

/-- `DigiKeyClient.extractSpecifications`; object-key assignment overwrites
an existing key in place. -/
def extractSpecifications (parameters : JSVal) : List (String × String) :=
  match parameters with
  | .arr ps =>
    ps.foldl (fun specs p =>
      if truthy (getField p "Parameter") && truthy (getField p "Value") then
        let k := jsToString (getField p "Parameter")
        let v := jsToString (getField p "Value")
        if specs.any (fun kv => kv.1 = k) then
          specs.map (fun kv => if kv.1 = k then (k, v) else kv)
        else specs ++ [(k, v)]
      else specs) []
  | _ => []

/-- `DigiKeyClient.parseProduct` (`parts-search.ts:140`); `none` models the
`TypeError` thrown when `product.Parameters` is truthy but not an array
(`.find` is applied to it, and `?.` only short-circuits `null`/`undefined`). -/
def digiKeyParseProduct (params : SearchParams) (product : JSVal) :
    Option PartSearchResult :=
  let pricing := jsOr (getField product "StandardPricing") (.arr [])
  let unitPrice : ℚ := match pricing with
    | .arr (x :: _) => asNumQ (getField x "UnitPrice")
    | _ => 0
  let parameters := getField product "Parameters"
  let pkg? : Option String := match parameters with
    | .null => some ""
    | .arr xs =>
      match xs.find? (fun p =>
          match getField p "Parameter" with
          | .str s => s = "Package / Case"
          | _ => false) with
      | some p => some (jsToString (jsOr (getField p "Value") (.str "")))
      | none => some ""
    | v => if truthy v then none else some ""
  match pkg? with
  | none => none
  | some pkg =>
    some { supplier := "Digi-Key"
           partNumber := jsToString (jsOr (getField product "DigiKeyPartNumber") (.str ""))
           manufacturer := jsToString (jsOr (getField (getField product "Manufacturer") "Name") (.str ""))
           manufacturerPartNumber := jsToString (jsOr (getField product "ManufacturerPartNumber") (.str ""))
           description := jsToString (jsOr (getField product "DetailedDescription")
             (jsOr (getField product "ProductDescription") (.str "")))
           value := params.value
           footprint := params.footprint
           stock := asNumQ (jsOr (getField product "QuantityAvailable") (.num 0))
           price := unitPrice
           currency := "USD"
           url := jsToString (jsOr (getField product "ProductUrl")
             (.str ("https://www.digikey.com/product-detail/en/" ++
               jsToString (getField product "DigiKeyPartNumber"))))
           datasheet := jsToString (jsOr (getField product "PrimaryDatasheet") (.str ""))
           package := pkg
           image := jsToString (jsOr (getField product "PrimaryPhoto") (.str ""))
           specifications := extractSpecifications parameters }

/-- `DigiKeyClient.search` (`parts-search.ts:87`): returns the result list
together with the number of network calls made.  The `catch` of the source
maps every internal failure to the empty list. -/
def digiKeySearch (c : DigiKeyClientState) (tokenFetch searchFetch : FetchOutcome)
    (params : SearchParams) : List PartSearchResult × ℕ :=
  if !digiKeyIsConfigured c then ([], 0)
  else
    match digiKeyGetAccessToken c tokenFetch with
    | (.error _, n) => ([], n)
    | (.ok _, n) =>
      let keyword := buildSearchKeyword params
      if keyword = "" then ([], n)
      else
        match searchFetch with
        | .thrown => ([], n + 1)
        | .resp ok body =>
          if !ok then ([], n + 1)
          else
            match jsOr (getField body "Products") (.arr []) with
            | .arr xs =>
              match xs.mapM (digiKeyParseProduct params) with
              | some l => (l, n + 1)
              | none => ([], n + 1)
            | _ => ([], n + 1)

/-! ### Mouser adapter -/

/-- First run of decimal digits, as matched by `/(\d+)/`. -/
def firstDigitRun : List Char → Option (List Char)
  | [] => none
  | c :: rest => if c.isDigit then some (c :: takeDigits rest) else firstDigitRun rest

/-- The price extraction of `MouserClient.parsePart` (`parts-search.ts:413`),
with the source's exact semantics: the outer `none` models the `TypeError`
thrown when the first price break's `Price` is truthy but not a string
(`.replace` applied to a non-string); the inner `none` models the `NaN`
that `parseFloat` yields on an unparseable (e.g. `'$'`-prefixed) string
and that the source stores into `price` unguarded. -/
def mouserPrice (part : JSVal) : Option (Option ℚ) :=
  match jsOr (getField part "PriceBreaks") (.arr []) with
  | .arr (x :: _) =>
    match getField x "Price" with
    | .null => some (parseFloatJS "0")
    | .str s =>
      let s' := removeCommas s
      some (parseFloatJS (if s' = "" then "0" else s'))
    | _ => none
  | _ => some (some 0)

/-- `MouserClient.parsePart` (`parts-search.ts:404`); `none` models the
`TypeError` thrown when `Availability` or a price break's `Price` is truthy
but not a string (`.match` / `.replace` applied to a non-string).  A `NaN`
price (inner `none` of `mouserPrice`) is stored as `0`: `Rat` has no `NaN`,
and inside this program the two are indistinguishable — the stored price
only feeds the strict `price > 0` test of `scoreDistributorPart`, which
`NaN` fails exactly as `0` does (`mouserPrice_nan_scores_as_zero` below
proves the consumer-side coincidence). -/
def mouserParsePart (params : SearchParams) (part : JSVal) :
    Option PartSearchResult :=
  match jsOr (getField part "Availability") (.str "") with
  | .str availability =>
    let stock : ℚ := match firstDigitRun availability.toList with
      | some ds => (digitsToNat ds : ℚ)
      | none => 0
    match mouserPrice part with
    | none => none
    | some priceJS =>
      let price : ℚ := priceJS.getD 0
      some { supplier := "Mouser"
             partNumber := jsToString (jsOr (getField part "MouserPartNumber") (.str ""))
             manufacturer := jsToString (jsOr (getField part "Manufacturer") (.str ""))
             manufacturerPartNumber := jsToString (jsOr (getField part "ManufacturerPartNumber") (.str ""))
             description := jsToString (jsOr (getField part "Description") (.str ""))
             value := params.value
             footprint := params.footprint
             stock := stock
             price := price
             currency := "USD"
             url := jsToString (jsOr (getField part "ProductDetailUrl") (.str ""))
             datasheet := jsToString (jsOr (getField part "DataSheetUrl") (.str ""))
             image := jsToString (jsOr (getField part "ImagePath") (.str "")) }
  | _ => none

/-- `MouserClient.search` (`parts-search.ts:347`). -/
def mouserSearch (apiKey : String) (fetch : FetchOutcome) (params : SearchParams) :
    List PartSearchResult × ℕ :=
  if apiKey = "" then ([], 0)
  else
    let keyword := buildSearchKeyword params
    if keyword = "" then ([], 0)
    else
      match fetch with
      | .thrown => ([], 1)
      | .resp ok body =>
        if !ok then ([], 1)
        else
          match jsOr (getField (getField body "SearchResults") "Parts") (.arr []) with
          | .arr xs =>
            match xs.mapM (mouserParsePart params) with
            | some l => (l, 1)
            | none => ([], 1)
          | _ => ([], 1)

/-! ## BOM upload route (`src/app/api/bom-upload/route.ts`) -/

/-- `Number.prototype.toLocaleString` for the stock figures in the match
notes: digit grouping for integers (non-integral stocks are approximated;
no theorem depends on them). -/
def natGrouped (n : ℕ) : String :=
  let ds := (toString n).toList
  let rec group (l : List Char) : List Char :=
    if _h : l.length ≤ 3 then l
    else group (l.take (l.length - 3)) ++ ',' :: l.drop (l.length - 3)
  termination_by l.length
  decreasing_by simp only [List.length_take]; omega
  String.mk (group ds)

def ratLocaleString (q : ℚ) : String :=
  if q.den = 1 then
    (if q.num < 0 then "-" else "") ++ natGrouped q.num.natAbs
  else
    (if q.num < 0 then "-" else "") ++ natGrouped q.num.natAbs ++ "/" ++ natGrouped q.den

/-- `scoreJLCPCBPart` (`route.ts:156`). -/
def scoreJLCPCBPart (part : PartSearchResult) : ℚ :=
  let score : ℚ := 0
  let score := if part.stock > 0 then score + 1000 else score
  let score := score + min (part.stock / 100000) 100
  let score := if part.price > 0 then score + max 0 (50 - part.price * 10) else score
  let score := if part.lcscPart ≠ "" then score + 50 else score
  score

/-- `scoreDistributorPart` (`route.ts:177`). -/
def scoreDistributorPart (part : PartSearchResult) : ℚ :=
  let score : ℚ := 0
  let score := if part.stock > 0 then score + 1000 else score
  let score := score + min (part.stock / 100000) 100
  let score := if part.price > 0 then score + max 0 (50 - part.price * 10) else score
  let score := if part.datasheet ≠ "" then score + 20 else score
  score

/-- Comparator order of `(a, b) => b.score - a.score` on scored pairs. -/
def scoreDescLE (a b : PartSearchResult × ℚ) : Bool := decide (b.2 ≤ a.2)

/-- `.map(p => ({part: p, score: ...})).sort((a, b) => b.score - a.score)`. -/
def rankCandidates (score : PartSearchResult → ℚ) (l : List PartSearchResult) :
    List (PartSearchResult × ℚ) :=
  sortBy scoreDescLE (l.map (fun p => (p, score p)))

/-- One supplier block of `selectBestPart` (the source repeats this block
verbatim per supplier, with that supplier's scoring function and note
text): if the result list is non-empty, score and rank it, and when the
top-ranked score is positive return the selected part with its note. -/
def trySupplier (score : PartSearchResult → ℚ) (note : PartSearchResult → String)
    (results : List PartSearchResult) : Option (Option PartSearchResult × String) :=
  if results.length > 0 then
    match rankCandidates score results with
    | [] => none
    | top :: _ => if top.2 > 0 then some (some top.1, note top.1) else none
  else none

def jlcpcbMatchNote (p : PartSearchResult) : String :=
  "Matched via JLCPCB (LCSC: " ++ p.lcscPart ++ ", Stock: " ++ ratLocaleString p.stock ++ ")"

def digikeyMatchNote (p : PartSearchResult) : String :=
  "Matched via Digi-Key (" ++ p.partNumber ++ ", Stock: " ++ ratLocaleString p.stock ++ ")"

def mouserMatchNote (p : PartSearchResult) : String :=
  "Matched via Mouser (" ++ p.partNumber ++ ", Stock: " ++ ratLocaleString p.stock ++ ")"

/-- `selectBestPart` (`route.ts:198`): the JLCPCB → Digi-Key → Mouser
cascade; each supplier's block fires only when its candidate list is
non-empty and its top-ranked score is positive. -/
def selectBestPart (jlcpcbResults digikeyResults mouserResults : List PartSearchResult) :
    Option PartSearchResult × String :=
  match trySupplier scoreJLCPCBPart jlcpcbMatchNote jlcpcbResults with
  | some r => r
  | none =>
    match trySupplier scoreDistributorPart digikeyMatchNote digikeyResults with
    | some r => r
    | none =>
      match trySupplier scoreDistributorPart mouserMatchNote mouserResults with
      | some r => r
      | none => (none, "No matches found")

/-! ### BOM rows and row interpretation -/

/-- A parsed CSV row: a column-name-indexed record of cell strings, with
`""` for absent columns (`parseCSV` trims every cell and defaults missing
cells to `''`, and the route treats `''` and `undefined` alike). -/
def BOMRow : Type := String → String

/-- Case map of `String.prototype.toLowerCase` / `toUpperCase` (ASCII). -/
def jsToLower (s : String) : String := String.mk (lowerList s.toList)

def jsToUpper (s : String) : String := String.mk (s.toList.map Char.toUpper)

/-- Leftmost match of `/(\d{4})Metric/i`, returning the captured digits. -/
def findDigitsMetric : List Char → Option (List Char)
  | [] => none
  | a :: rest =>
    match (match a :: rest with
           | a :: b :: c :: d :: tail =>
             if a.isDigit && b.isDigit && c.isDigit && d.isDigit &&
                 "metric".toList.isPrefixOf (lowerList tail) then
               some [a, b, c, d]
             else none
           | _ => none) with
    | some ds => some ds
    | none => findDigitsMetric rest

/-- `extractFootprint` (`route.ts:95`). -/
def extractFootprint (row : BOMRow) : String :=
  if row "Footprint" ≠ "" then
    match findDigitsMetric (row "Footprint").toList with
    | some ds => String.mk ds
    | none =>
      match findMetric (row "Footprint").toList with
      | some ds => String.mk ds
      | none =>
        if row "CASE CODE (METRIC)" ≠ "" then row "CASE CODE (METRIC)" else ""
  else if row "CASE CODE (METRIC)" ≠ "" then row "CASE CODE (METRIC)" else ""

/-- Anchored test of `/^[0-9.]+[...unit letters...]/` against an
(uppercased) value: a non-empty prefix of digits or dots followed by one of
the unit letters. -/
def testNumUnit (units : List Char) (val : List Char) : Bool :=
  match val with
  | [] => false
  | c :: rest =>
    if c.isDigit || c = '.' then numUnitGo units rest else false
where
  numUnitGo (units : List Char) : List Char → Bool
    | [] => false
    | c :: rest =>
      if units.contains c then true
      else if c.isDigit || c = '.' then numUnitGo units rest
      else false

/-- `inferComponentType` (`route.ts:116`): reference-designator prefixes in
source order, then value-pattern fallbacks. -/
def inferComponentType (value reference : String) : String :=
  let ref := (jsToUpper reference).toList
  let val := (jsToUpper value).toList
  if "C".toList.isPrefixOf ref then "capacitor"
  else if "R".toList.isPrefixOf ref then "resistor"
  else if "L".toList.isPrefixOf ref then "inductor"
  else if "LED".toList.isPrefixOf ref then "led"
  else if "D".toList.isPrefixOf ref then "diode"
  else if "U".toList.isPrefixOf ref then "ic"
  else if "Y".toList.isPrefixOf ref ∨ "X".toList.isPrefixOf ref then "crystal"
  else if "S".toList.isPrefixOf ref then "switch"
  else if "J".toList.isPrefixOf ref then "connector"
  else if "MIC".toList.isPrefixOf ref then "microphone"
  else if testNumUnit ['P', 'N', 'µ', 'U', 'F'] val ∨ containsSeq "FARAD".toList val then "capacitor"
  else if testNumUnit ['K', 'M', 'R'] val ∨ containsSeq "OHM".toList val then "resistor"
  else if testNumUnit ['N', 'H'] val ∧ (val.getLast? = some 'H') then "inductor"
  else ""

inductive SourcingStatus where
  | matched | not_found | skipped | already_sourced
deriving DecidableEq

/-- `SourcingResult` of `route.ts` (per-supplier raw result lists kept). -/
structure SourcingResult where
  originalRow : BOMRow
  matchedPart : Option PartSearchResult
  searchJLCPCB : List PartSearchResult := []
  searchDigiKey : List PartSearchResult := []
  searchMouser : List PartSearchResult := []
  status : SourcingStatus
  notes : String

/-- The `Exclude from BOM` test of `processBOMRow` (`route.ts:256`). -/
def isExcludedFromBOM (row : BOMRow) : Bool :=
  jsToLower (row "Exclude from BOM") = "yes" ∨
  jsToLower (row "Exclude from BOM") = "true" ∨
  jsToLower (row "Exclude from BOM") = "excluded from bom"

/-- The DNP test of `processBOMRow` (`route.ts:269`). -/
def isDNP (row : BOMRow) : Bool :=
  jsToLower (row "DNP") = "yes" ∨ jsToLower (row "DNP") = "true" ∨
  jsToUpper (row "Manufacturer_Part_Number") = "DNP"

/-- `processBOMRow` (`route.ts:252`), parameterized by the
`searchAllSuppliers` oracle (JLCPCB, Digi-Key, Mouser result lists); also
returns the number of search calls performed. -/
def processBOMRow
    (searchAllSuppliers : SearchParams → List PartSearchResult × List PartSearchResult × List PartSearchResult)
    (row : BOMRow) : SourcingResult × ℕ :=
  if isExcludedFromBOM row then
    ({ originalRow := row, matchedPart := none, status := .skipped,
       notes := "Excluded from BOM" }, 0)
  else if isDNP row then
    ({ originalRow := row, matchedPart := none, status := .skipped,
       notes := "DNP (Do Not Populate)" }, 0)
  else if jsTrim (row "LCSC Part #") ≠ "" ∨ jsTrim (row "JLCPCB Part #") ≠ "" then
    ({ originalRow := row, matchedPart := none, status := .already_sourced,
       notes := "Already has LCSC/JLCPCB part number" }, 0)
  else
    let value := jsTrim (row "Value")
    let footprint := extractFootprint row
    let componentType := inferComponentType value (row "Reference")
    let manufacturerPartNumber := jsTrim (row "Manufacturer_Part_Number")
    if value = "" ∧ manufacturerPartNumber = "" then
      ({ originalRow := row, matchedPart := none, status := .not_found,
         notes := "No value or part number to search" }, 0)
    else
      let (jlcpcbResults, digikeyResults, mouserResults) :=
        searchAllSuppliers { value := value, footprint := footprint,
                             componentType := componentType,
                             manufacturerPartNumber := manufacturerPartNumber,
                             limit := 10 }
      let (part, notes) := selectBestPart jlcpcbResults digikeyResults mouserResults
      ({ originalRow := row, matchedPart := part,
         searchJLCPCB := jlcpcbResults, searchDigiKey := digikeyResults,
         searchMouser := mouserResults,
         status := if part.isSome then .matched else .not_found,
         notes := notes }, 1)

/-! ### Merge-back -/

/-- Update one column of a row (`updatedRow[k] = v`). -/
def updateCol (row : BOMRow) (k v : String) : BOMRow :=
  fun k' => if k' = k then v else row k'

/-- The cross-reference step of `mergeSourcedData`: when the Part has an
LCSC id, write it to both the `LCSC Part #` and `JLCPCB Part #` columns. -/
def fillCrossRef (u : BOMRow) (id : String) : BOMRow :=
  if id ≠ "" then updateCol (updateCol u "LCSC Part #" id) "JLCPCB Part #" id else u

/-- One `if (part.x && !updatedRow.Col) updatedRow.Col = part.x` statement
of `mergeSourcedData`: fill a column only when the Part value is non-empty
and the column is currently empty. -/
def fillIfEmpty (u : BOMRow) (col v : String) : BOMRow :=
  if v ≠ "" ∧ u col = "" then updateCol u col v else u

/-- `mergeSourcedData` (`route.ts:341`): the six fill statements of the
source, applied in source order to `{ ...row }`. -/
def mergeSourcedData (row : BOMRow) (result : SourcingResult) : BOMRow :=
  match result.matchedPart with
  | none => row
  | some part =>
    fillIfEmpty (fillIfEmpty (fillIfEmpty (fillIfEmpty (fillIfEmpty
      (fillCrossRef row part.lcscPart)
      "Manufacturer_Part_Number" part.manufacturerPartNumber)
      "Manufacturer_Name" part.manufacturer)
      "Datasheet" part.datasheet)
      "Description" part.description)
      "CASE CODE (METRIC)" part.package

/-! ## Scoring: closed forms and the spec's reference formulas -/

/-- Closed form of `scoreJLCPCBPart`. -/
theorem scoreJLCPCBPart_eq (p : PartSearchResult) :
    scoreJLCPCBPart p =
      (if 0 < p.stock then (1000 : ℚ) else 0) + min (p.stock / 100000) 100 +
        (if 0 < p.price then max 0 (50 - p.price * 10) else 0) +
        (if p.lcscPart ≠ "" then 50 else 0) := by
  simp only [scoreJLCPCBPart, gt_iff_lt]
  split_ifs <;> ring

/-- Closed form of `scoreDistributorPart`. -/
theorem scoreDistributorPart_eq (p : PartSearchResult) :
    scoreDistributorPart p =
      (if 0 < p.stock then (1000 : ℚ) else 0) + min (p.stock / 100000) 100 +
        (if 0 < p.price then max 0 (50 - p.price * 10) else 0) +
        (if p.datasheet ≠ "" then 20 else 0) := by
  simp only [scoreDistributorPart, gt_iff_lt]
  split_ifs <;> ring

/-- The consumer-side coincidence justifying how `mouserParsePart` stores a
`NaN` price: the stored price of a Mouser part is only ever read by the
strict `price > 0` test of `scoreDistributorPart`, and any price failing
that test — as JavaScript's `NaN` does — scores exactly like `0`. -/
theorem mouserPrice_nan_scores_as_zero (p : PartSearchResult) (q : ℚ) (h : ¬ 0 < q) :
    scoreDistributorPart { p with price := q } = scoreDistributorPart { p with price := 0 } := by
  rw [scoreDistributorPart_eq, scoreDistributorPart_eq]
  norm_num [h]

/-- The scoring formula for community-catalog parts, transcribed from the
specification text (§4.4). -/
def specCatalogScore (p : PartSearchResult) : ℚ :=
  1000 * (if p.stock > 0 then 1 else 0) + min (p.stock / 100000) 100 +
    (if p.price > 0 then max 0 (50 - p.price * 10) else 0) +
    50 * (if p.lcscPart ≠ "" then 1 else 0)

/-- The scoring formula for distributor parts, transcribed from the
specification text (§4.4). -/
def specDistributorScore (p : PartSearchResult) : ℚ :=
  1000 * (if p.stock > 0 then 1 else 0) + min (p.stock / 100000) 100 +
    (if p.price > 0 then max 0 (50 - p.price * 10) else 0) +
    20 * (if p.datasheet ≠ "" then 1 else 0)

/-- **C2.** Both scoring functions of the route equal the reference
formulas of the specification: `1000×[stock>0] + min(stock/100000, 100) +
max(0, 50 − price×10) [if price>0]` plus `50×[has cross-reference id]`
(free catalog) respectively `20×[has datasheet URL]` (distributors). -/
theorem claim_C2 (p : PartSearchResult) :
    scoreJLCPCBPart p = specCatalogScore p ∧
    scoreDistributorPart p = specDistributorScore p := by
  constructor
  · rw [scoreJLCPCBPart_eq]
    simp only [specCatalogScore, gt_iff_lt]
    split_ifs <;> ring
  · rw [scoreDistributorPart_eq]
    simp only [specDistributorScore, gt_iff_lt]
    split_ifs <;> ring

/-- A helper for stock monotonicity of the common score kernel. -/
theorem stock_terms_mono {s₁ s₂ : ℚ} (h : s₁ ≤ s₂) :
    (if 0 < s₁ then (1000 : ℚ) else 0) + min (s₁ / 100000) 100 ≤
      (if 0 < s₂ then (1000 : ℚ) else 0) + min (s₂ / 100000) 100 := by
  have h1 : (if 0 < s₁ then (1000 : ℚ) else 0) ≤ (if 0 < s₂ then (1000 : ℚ) else 0) := by
    split_ifs <;> linarith
  have h2 : min (s₁ / 100000) 100 ≤ min (s₂ / 100000) (100 : ℚ) := by
    have : s₁ / 100000 ≤ s₂ / 100000 :=
      (div_le_div_iff_of_pos_right (by norm_num : (0 : ℚ) < 100000)).mpr h
    exact min_le_min this le_rfl
  linarith

/-- A helper for price anti-monotonicity of the common score kernel. -/
theorem price_term_anti {q₁ q₂ : ℚ} (h0 : 0 < q₁) (h : q₁ ≤ q₂) :
    (if 0 < q₂ then max 0 (50 - q₂ * 10) else (0 : ℚ)) ≤
      (if 0 < q₁ then max 0 (50 - q₁ * 10) else 0) := by
  rw [if_pos h0, if_pos (lt_of_lt_of_le h0 h)]
  exact max_le_max le_rfl (by linarith)

/-- **C7.** Both scoring functions are monotone in stock (all other fields
fixed) and anti-monotone in price (when both prices are positive). -/
theorem claim_C7 (p : PartSearchResult) (s₁ s₂ q₁ q₂ : ℚ) :
    (s₁ ≤ s₂ →
      scoreJLCPCBPart { p with stock := s₁ } ≤ scoreJLCPCBPart { p with stock := s₂ } ∧
      scoreDistributorPart { p with stock := s₁ } ≤ scoreDistributorPart { p with stock := s₂ }) ∧
    (0 < q₁ → q₁ ≤ q₂ →
      scoreJLCPCBPart { p with price := q₂ } ≤ scoreJLCPCBPart { p with price := q₁ } ∧
      scoreDistributorPart { p with price := q₂ } ≤ scoreDistributorPart { p with price := q₁ }) := by
  constructor
  · intro h
    constructor
    · rw [scoreJLCPCBPart_eq, scoreJLCPCBPart_eq]
      simp only
      have := stock_terms_mono h
      linarith [stock_terms_mono h]
    · rw [scoreDistributorPart_eq, scoreDistributorPart_eq]
      simp only
      linarith [stock_terms_mono h]
  · intro h0 h
    constructor
    · rw [scoreJLCPCBPart_eq, scoreJLCPCBPart_eq]
      simp only
      linarith [price_term_anti h0 h]
    · rw [scoreDistributorPart_eq, scoreDistributorPart_eq]
      simp only
      linarith [price_term_anti h0 h]

/-- Witness for C7 at concrete inputs. -/
theorem claim_C7_witness :
    (scoreJLCPCBPart { stock := 1 } ≤ scoreJLCPCBPart { stock := 2 } ∧
      scoreDistributorPart { stock := 1 } ≤ scoreDistributorPart { stock := 2 }) ∧
    (scoreJLCPCBPart { price := 2 } ≤ scoreJLCPCBPart { price := 1 } ∧
      scoreDistributorPart { price := 2 } ≤ scoreDistributorPart { price := 1 }) :=
  ⟨(claim_C7 {} 1 2 1 2).1 (by norm_num),
   (claim_C7 {} 1 2 1 2).2 (by norm_num) (by norm_num)⟩

/-! ## Ranking and the selection cascade -/

theorem scoreDescLE_total (a b : PartSearchResult × ℚ) :
    scoreDescLE a b = false → scoreDescLE b a = true := by
  simp only [scoreDescLE, decide_eq_false_iff_not, decide_eq_true_eq]
  intro h
  linarith [lt_of_not_le h]

theorem scoreDescLE_trans (a b c : PartSearchResult × ℚ) :
    scoreDescLE a b = true → scoreDescLE b c = true → scoreDescLE a c = true := by
  simp only [scoreDescLE, decide_eq_true_eq]
  intro h1 h2
  linarith

/-- The head of the ranked candidate list is a maximal-score member. -/
theorem rankCandidates_top (score : PartSearchResult → ℚ) (l : List PartSearchResult)
    (top : PartSearchResult × ℚ) (tail : List (PartSearchResult × ℚ))
    (h : rankCandidates score l = top :: tail) :
    top.1 ∈ l ∧ top.2 = score top.1 ∧ ∀ p ∈ l, score p ≤ score top.1 := by
  have h' : sortBy scoreDescLE (l.map fun p => (p, score p)) = top :: tail := h
  have hmem : top ∈ sortBy scoreDescLE (l.map fun p => (p, score p)) := by
    rw [h']; exact List.mem_cons_self _ _
  rw [mem_sortBy] at hmem
  obtain ⟨p, hp, hpe⟩ := List.mem_map.mp hmem
  have hfst : p = top.1 := congrArg Prod.fst hpe
  have hsnd : score p = top.2 := congrArg Prod.snd hpe
  refine ⟨hfst ▸ hp, by rw [← hfst, hsnd], ?_⟩
  intro q hq
  have hq' : (q, score q) ∈ sortBy scoreDescLE (l.map fun p => (p, score p)) :=
    (mem_sortBy _ _ _).mpr (List.mem_map_of_mem _ hq)
  rw [h'] at hq'
  rcases List.mem_cons.mp hq' with heq | htail
  · have : q = top.1 := congrArg Prod.fst heq
    rw [← this]
  · have hpw := pairwise_sortBy scoreDescLE scoreDescLE_total scoreDescLE_trans
      (l.map fun p => (p, score p))
    rw [h'] at hpw
    have hle := (List.pairwise_cons.mp hpw).1 _ htail
    simp only [scoreDescLE, decide_eq_true_eq] at hle
    calc score q ≤ top.2 := hle
    _ = score top.1 := by rw [← hfst, hsnd]

theorem rankCandidates_length (score : PartSearchResult → ℚ) (l : List PartSearchResult) :
    (rankCandidates score l).length = l.length := by
  simp [rankCandidates, length_sortBy]

/-- One supplier block selects a maximal positive-score member when one
exists. -/
theorem trySupplier_pos (score : PartSearchResult → ℚ) (note : PartSearchResult → String)
    (l : List PartSearchResult) (p : PartSearchResult) (hp : p ∈ l) (hpos : 0 < score p) :
    ∃ q ∈ l, trySupplier score note l = some (some q, note q) ∧ 0 < score q ∧
      ∀ r ∈ l, score r ≤ score q := by
  have hne : l ≠ [] := List.ne_nil_of_mem hp
  cases hr : rankCandidates score l with
  | nil =>
    exfalso
    have := rankCandidates_length score l
    rw [hr] at this
    exact hne (List.length_eq_zero.mp this.symm)
  | cons top tail =>
    obtain ⟨htopmem, htopsc, hmax⟩ := rankCandidates_top score l top tail hr
    have htoppos : top.2 > 0 := by
      rw [htopsc]; exact lt_of_lt_of_le hpos (hmax p hp)
    refine ⟨top.1, htopmem, ?_, htopsc ▸ htoppos, hmax⟩
    simp only [trySupplier, if_pos (List.length_pos.mpr hne), hr, if_pos htoppos]

/-- One supplier block yields nothing when no candidate scores positively. -/
theorem trySupplier_none (score : PartSearchResult → ℚ) (note : PartSearchResult → String)
    (l : List PartSearchResult) (hall : ∀ p ∈ l, score p ≤ 0) :
    trySupplier score note l = none := by
  rcases eq_or_ne l [] with rfl | hne
  · simp [trySupplier]
  · cases hr : rankCandidates score l with
    | nil => simp [trySupplier, hr]
    | cons top tail =>
      obtain ⟨htopmem, htopsc, _⟩ := rankCandidates_top score l top tail hr
      have : ¬ top.2 > 0 := by rw [htopsc]; exact not_lt.mpr (hall top.1 htopmem)
      simp only [trySupplier, if_pos (List.length_pos.mpr hne), hr, if_neg this]

/-- **C1.** The selection cascade: a positive-scoring JLCPCB candidate is
always selected (the selected part is a maximal-score member of the JLCPCB
list) no matter what the distributor candidates score; Digi-Key is
consulted only when no JLCPCB candidate scores positively, then Mouser;
and when no supplier has a positive-scoring candidate the result is no
part with note "No matches found". -/
theorem claim_C1 (jlc dk mo : List PartSearchResult) :
    ((∃ p ∈ jlc, 0 < scoreJLCPCBPart p) →
      ∃ q ∈ jlc, (selectBestPart jlc dk mo).1 = some q ∧ 0 < scoreJLCPCBPart q ∧
        ∀ r ∈ jlc, scoreJLCPCBPart r ≤ scoreJLCPCBPart q) ∧
    ((∀ p ∈ jlc, scoreJLCPCBPart p ≤ 0) → (∃ p ∈ dk, 0 < scoreDistributorPart p) →
      ∃ q ∈ dk, (selectBestPart jlc dk mo).1 = some q ∧
        ∀ r ∈ dk, scoreDistributorPart r ≤ scoreDistributorPart q) ∧
    ((∀ p ∈ jlc, scoreJLCPCBPart p ≤ 0) → (∀ p ∈ dk, scoreDistributorPart p ≤ 0) →
      (∃ p ∈ mo, 0 < scoreDistributorPart p) →
      ∃ q ∈ mo, (selectBestPart jlc dk mo).1 = some q ∧
        ∀ r ∈ mo, scoreDistributorPart r ≤ scoreDistributorPart q) ∧
    ((∀ p ∈ jlc, scoreJLCPCBPart p ≤ 0) → (∀ p ∈ dk, scoreDistributorPart p ≤ 0) →
      (∀ p ∈ mo, scoreDistributorPart p ≤ 0) →
      selectBestPart jlc dk mo = (none, "No matches found")) := by
  refine ⟨?_, ?_, ?_, ?_⟩
  · rintro ⟨p, hp, hpos⟩
    obtain ⟨q, hq, heq, hqpos, hmax⟩ :=
      trySupplier_pos scoreJLCPCBPart jlcpcbMatchNote jlc p hp hpos
    refine ⟨q, hq, ?_, hqpos, hmax⟩
    simp only [selectBestPart, heq]
  · rintro hjlc ⟨p, hp, hpos⟩
    obtain ⟨q, hq, heq, hqpos, hmax⟩ :=
      trySupplier_pos scoreDistributorPart digikeyMatchNote dk p hp hpos
    refine ⟨q, hq, ?_, hmax⟩
    simp only [selectBestPart, trySupplier_none scoreJLCPCBPart jlcpcbMatchNote jlc hjlc, heq]
  · rintro hjlc hdk ⟨p, hp, hpos⟩
    obtain ⟨q, hq, heq, hqpos, hmax⟩ :=
      trySupplier_pos scoreDistributorPart mouserMatchNote mo p hp hpos
    refine ⟨q, hq, ?_, hmax⟩
    simp only [selectBestPart, trySupplier_none scoreJLCPCBPart jlcpcbMatchNote jlc hjlc,
      trySupplier_none scoreDistributorPart digikeyMatchNote dk hdk, heq]
  · intro hjlc hdk hmo
    simp only [selectBestPart, trySupplier_none scoreJLCPCBPart jlcpcbMatchNote jlc hjlc,
      trySupplier_none scoreDistributorPart digikeyMatchNote dk hdk,
      trySupplier_none scoreDistributorPart mouserMatchNote mo hmo]

/-- A JLCPCB candidate scoring exactly 10 (stock 0, price 4, no LCSC id). -/
def jlcLowScorePart : PartSearchResult := { supplier := "JLCPCB", price := 4 }

/-- A distributor candidate scoring 1160 — the cap analysis of the scoring
formula (1000 + 100 + 50 + 20) shows a distributor part can never reach
the 5000 of the spec's illustration, so this is a near-maximal one. -/
def distributorHighScorePart : PartSearchResult :=
  { supplier := "Digi-Key", partNumber := "DK-1", stock := 10000000, price := 1,
    datasheet := "https://example.com/ds.pdf" }

/-- Witness for C1: the score-10 JLCPCB candidate is selected over the
score-1160 distributor candidate. -/
theorem claim_C1_witness :
    scoreJLCPCBPart jlcLowScorePart = 10 ∧
    scoreDistributorPart distributorHighScorePart = 1160 ∧
    ∃ q ∈ [jlcLowScorePart],
      (selectBestPart [jlcLowScorePart] [distributorHighScorePart] []).1 = some q ∧
      0 < scoreJLCPCBPart q ∧
      ∀ r ∈ [jlcLowScorePart], scoreJLCPCBPart r ≤ scoreJLCPCBPart q := by
  have hJ : scoreJLCPCBPart jlcLowScorePart = 10 := by
    norm_num [scoreJLCPCBPart, jlcLowScorePart]
  have hD : scoreDistributorPart distributorHighScorePart = 1160 := by
    norm_num [scoreDistributorPart, distributorHighScorePart,
      show ("https://example.com/ds.pdf" : String) ≠ "" from by decide]
  exact ⟨hJ, hD, (claim_C1 [jlcLowScorePart] [distributorHighScorePart] []).1
    ⟨jlcLowScorePart, List.mem_singleton_self _, by rw [hJ]; norm_num⟩⟩

/-! ## Idempotence of footprint normalization -/

theorem toList_mk (l : List Char) : (String.mk l).toList = l := rfl

theorem mk_toList (s : String) : String.mk s.toList = s := by cases s; rfl

/-- A successful `metricHere` match is four digits. -/
theorem metricHere_digits {l ds : List Char} (h : metricHere l = some ds) :
    ds.length = 4 ∧ ∀ c ∈ ds, c.isDigit = true := by
  unfold metricHere at h
  split at h
  · rename_i a b c d rest
    split_ifs at h with hc
    · cases h
      simp only [Bool.and_eq_true] at hc
      refine ⟨rfl, ?_⟩
      intro x hx
      simp only [List.mem_cons, List.not_mem_nil, or_false] at hx
      rcases hx with rfl | rfl | rfl | rfl
      · exact hc.1.1.1.1
      · exact hc.1.1.1.2
      · exact hc.1.1.2
      · exact hc.1.2
  · cases h

/-- Anything `findMetricAux` returns is four digits. -/
theorem findMetricAux_digits :
    ∀ (l : List Char) (prev : Option Char) (ds : List Char),
      findMetricAux prev l = some ds → ds.length = 4 ∧ ∀ c ∈ ds, c.isDigit = true := by
  intro l
  induction l with
  | nil => intro prev ds h; simp [findMetricAux] at h
  | cons c rest ih =>
    intro prev ds h
    simp only [findMetricAux] at h
    split at h
    · rename_i ds' heq
      cases h
      split_ifs at heq
      exact metricHere_digits heq
    · exact ih (some c) ds h

/-- `findMetric` maps a pure four-digit string to itself. -/
theorem findMetric_four {a b c d : Char} (ha : a.isDigit = true) (hb : b.isDigit = true)
    (hc : c.isDigit = true) (hd : d.isDigit = true) :
    findMetric [a, b, c, d] = some [a, b, c, d] := by
  simp [findMetric, findMetricAux, metricHere, ha, hb, hc, hd]

/-- `normalizeFootprint` fixes four-digit codes. -/
theorem normalizeFootprint_four_digits (s : String) (h4 : s.toList.length = 4)
    (hd : ∀ c ∈ s.toList, c.isDigit = true) : normalizeFootprint s = s := by
  obtain ⟨a, b, c, d, he⟩ : ∃ a b c d, s.toList = [a, b, c, d] := by
    rcases hl : s.toList with _ | ⟨a, tl⟩
    · rw [hl] at h4; cases h4
    · rw [hl] at h4
      simp only [List.length_cons, Nat.succ_inj] at h4
      obtain ⟨b, c, d, htl⟩ := List.length_eq_three.mp h4
      exact ⟨a, b, c, d, by rw [htl]⟩
  have hm : findMetric s.toList = some s.toList := by
    rw [he]
    exact findMetric_four (hd a (he ▸ by simp)) (hd b (he ▸ by simp))
      (hd c (he ▸ by simp)) (hd d (he ▸ by simp))
  simp only [normalizeFootprint, hm, mk_toList]

/-- **C8.** `normalizeFootprint` is idempotent; an already-normalized
four-digit code maps to itself; and "0402 (1005 Metric)" maps to "0402". -/
theorem claim_C8 :
    (∀ s : String, normalizeFootprint (normalizeFootprint s) = normalizeFootprint s) ∧
    (∀ s : String, s.toList.length = 4 → (∀ c ∈ s.toList, c.isDigit = true) →
      normalizeFootprint s = s) ∧
    normalizeFootprint "0402 (1005 Metric)" = "0402" := by
  refine ⟨?_, normalizeFootprint_four_digits, by decide⟩
  intro s
  cases hm : findMetric s.toList with
  | some ds =>
    have e1 : normalizeFootprint s = String.mk ds := by
      simp only [normalizeFootprint, hm]
    obtain ⟨h4, hd⟩ := findMetricAux_digits s.toList none ds hm
    rw [e1]
    exact normalizeFootprint_four_digits (String.mk ds) (by rw [toList_mk]; exact h4)
      (by rw [toList_mk]; exact hd)
  | none =>
    cases hf : footprintPairs.find?
        (fun kv => containsSeq kv.1.toList (lowerList s.toList)) with
    | some kv =>
      have e1 : normalizeFootprint s = kv.2 := by
        simp only [normalizeFootprint, hm, hf]
      have hkv : kv ∈ footprintPairs := List.mem_of_find?_eq_some hf
      rw [e1]
      simp only [footprintPairs, List.mem_cons, List.not_mem_nil, or_false] at hkv
      rcases hkv with rfl | rfl | rfl | rfl | rfl | rfl | rfl <;> decide
    | none =>
      have e1 : normalizeFootprint s = s := by
        simp only [normalizeFootprint, hm, hf]
      rw [e1, e1]

/-- Witness for C8 at the concrete code "0603". -/
theorem claim_C8_witness :
    ("0603" : String).toList.length = 4 ∧ normalizeFootprint "0603" = "0603" :=
  ⟨by decide, claim_C8.2.1 "0603" (by decide) (by decide)⟩

/-! ## Component-type inference: the dead LED branch -/

/-- **C9.** Evaluating `inferComponentType` at a reference designator that
begins with "LED": the `ref.startsWith('L')` test precedes the
`ref.startsWith('LED')` test in the source, so the LED branch is dead code
and the row is classified as an inductor, contradicting the claimed
"LED" → led table entry. -/
theorem claim_C9 :
    inferComponentType "" "LED1" = "inductor" ∧ inferComponentType "" "LED1" ≠ "led" := by
  decide

/-! ## Row processing: the already-sourced short-circuit -/

/-- A stubbed `searchAllSuppliers` returning no results. -/
def emptySearchAll :
    SearchParams → List PartSearchResult × List PartSearchResult × List PartSearchResult :=
  fun _ => ([], [], [])

/-- A row with a non-empty cross-reference column AND an exclusion flag. -/
def c5Row : BOMRow := fun k =>
  if k = "LCSC Part #" then "C123" else if k = "Exclude from BOM" then "yes" else ""

/-- Counterexample to C5 as stated: the exclusion check precedes the
already-sourced check, so this row is `skipped`, not `already_sourced`,
despite its non-empty cross-reference column. -/
theorem claim_C5_counterexample :
    jsTrim (c5Row "LCSC Part #") ≠ "" ∧
    (processBOMRow emptySearchAll c5Row).1.status = SourcingStatus.skipped ∧
    (processBOMRow emptySearchAll c5Row).1.status ≠ SourcingStatus.already_sourced := by
  decide

/-- **C5 (amended).** Provided the row is not excluded from the BOM and not
marked DNP, a row whose cross-reference column (`LCSC Part #` or
`JLCPCB Part #`) is non-empty after trimming is `already_sourced` and
performs zero supplier search calls, regardless of all other columns. -/
theorem claim_C5
    (searchAll : SearchParams → List PartSearchResult × List PartSearchResult × List PartSearchResult)
    (row : BOMRow) (hex : isExcludedFromBOM row = false) (hdnp : isDNP row = false)
    (hcr : jsTrim (row "LCSC Part #") ≠ "" ∨ jsTrim (row "JLCPCB Part #") ≠ "") :
    (processBOMRow searchAll row).1.status = SourcingStatus.already_sourced ∧
    (processBOMRow searchAll row).2 = 0 := by
  simp [processBOMRow, hex, hdnp, hcr]

/-- A row whose only content is a cross-reference column. -/
def c5GoodRow : BOMRow := fun k => if k = "JLCPCB Part #" then "C77" else ""

/-- Witness for the amended C5. -/
theorem claim_C5_witness :
    (processBOMRow emptySearchAll c5GoodRow).1.status = SourcingStatus.already_sourced ∧
    (processBOMRow emptySearchAll c5GoodRow).2 = 0 :=
  claim_C5 emptySearchAll c5GoodRow (by decide) (by decide) (by decide)

/-! ## Adapter numeric sanitization: the negative-stock hole -/

/-- An upstream JLCPCB component whose stock field is the string "-5":
`parseInt` accepts the sign, the `isNaN` guard passes, and the negative
value flows into the Part. -/
def malformedStockComponent : JSVal := .obj [("stock", .str "-5")]

/-- **C3.** Evaluating the embedded `JLCPCBClient.parseComponent` at the
malformed payload: the produced Part has stock −5 < 0, contradicting the
claimed invariant that every adapter-produced Part has stock ≥ 0. -/
theorem claim_C3 :
    (jlcpcbParseComponent {} malformedStockComponent).stock = -5 ∧
    (jlcpcbParseComponent {} malformedStockComponent).stock < 0 := by
  have h : (jlcpcbParseComponent {} malformedStockComponent).stock = -5 := by decide
  exact ⟨h, by rw [h]; norm_num⟩

/-! ## The JLCPCB adapter's identifier filter -/

theorem jlcpcbProcessResults_mem (params : SearchParams) (comps : List JSVal)
    (r : PartSearchResult) (hr : r ∈ jlcpcbProcessResults params comps) :
    r.partNumber ≠ "" ∨ r.lcscPart ≠ "" := by
  simp only [jlcpcbProcessResults] at hr
  have h1 := List.mem_of_mem_take hr
  rw [mem_sortBy] at h1
  exact of_decide_eq_true (List.mem_filter.mp h1).2

/-- **C10.** Every Part returned by the JLCPCB adapter has a non-empty
supplier part number or a non-empty LCSC cross-reference id: candidates
with neither are filtered out before sorting and truncation. -/
theorem claim_C10 (fetch : FetchOutcome) (params : SearchParams) :
    ∀ r ∈ (jlcpcbSearch fetch params).1, r.partNumber ≠ "" ∨ r.lcscPart ≠ "" := by
  intro r hr
  unfold jlcpcbSearch at hr
  repeat' split at hr
  all_goals simp only [apply_ite Prod.fst] at hr
  all_goals (try split at hr)
  all_goals first
    | exact jlcpcbProcessResults_mem params _ r hr
    | simp at hr

def c10Params : SearchParams := { value := "100K", limit := 10 }

def c10Fetch : FetchOutcome :=
  .resp true (.obj [("components", .arr [.obj [("lcsc", .num 123)]])])

/-- Witness for C10 on a concrete successful fetch. -/
theorem claim_C10_witness :
    (jlcpcbParseComponent c10Params (.obj [("lcsc", .num 123)])).partNumber ≠ "" ∨
    (jlcpcbParseComponent c10Params (.obj [("lcsc", .num 123)])).lcscPart ≠ "" :=
  claim_C10 c10Fetch c10Params _ (by decide)

/-! ## Merge-back -/

/-- A row whose cross-reference column is already non-empty. -/
def c6Row : BOMRow := fun k => if k = "LCSC Part #" then "C1" else ""

/-- A selected part carrying a different cross-reference id. -/
def c6Part : PartSearchResult := { supplier := "JLCPCB", lcscPart := "C2" }

def c6Res : SourcingResult :=
  { originalRow := c6Row, matchedPart := some c6Part, status := .matched, notes := "" }

/-- Counterexample to C6 as stated: `mergeSourcedData` overwrites a
non-empty cross-reference column with the selected Part's id, so "every
column of the original row that was non-empty keeps its original value" is
false for the merge-back function taken on its own. -/
theorem claim_C6_counterexample :
    c6Row "LCSC Part #" = "C1" ∧ c6Row "LCSC Part #" ≠ "" ∧
    mergeSourcedData c6Row c6Res "LCSC Part #" = "C2" ∧
    mergeSourcedData c6Row c6Res "LCSC Part #" ≠ c6Row "LCSC Part #" := by
  decide

/-- **C6 (amended).** For rows whose two cross-reference columns are empty
(which is the case whenever the pipeline selects a Part, since a non-empty
cross-reference short-circuits to `already_sourced`): the merge writes both
cross-reference columns to the Part's id (a no-op when the id is empty),
writes each of the five data columns only when that column is empty in the
original row, and every other column — in particular every non-empty
column — keeps its original value. -/
theorem updateCol_self (u : BOMRow) (k v : String) : updateCol u k v k = v := by
  simp [updateCol]

theorem updateCol_other (u : BOMRow) (k v k' : String) (h : k' ≠ k) :
    updateCol u k v k' = u k' := by
  simp [updateCol, h]

theorem fillIfEmpty_other (u : BOMRow) (col v k : String) (h : k ≠ col) :
    fillIfEmpty u col v k = u k := by
  unfold fillIfEmpty
  split_ifs <;> simp [updateCol, h]

theorem fillIfEmpty_self (u : BOMRow) (col v : String) :
    fillIfEmpty u col v col = if v ≠ "" ∧ u col = "" then v else u col := by
  unfold fillIfEmpty
  split_ifs <;> simp [updateCol]

theorem fillCrossRef_other (u : BOMRow) (id k : String)
    (h1 : k ≠ "LCSC Part #") (h2 : k ≠ "JLCPCB Part #") :
    fillCrossRef u id k = u k := by
  unfold fillCrossRef
  split_ifs <;> simp [updateCol, h1, h2]

theorem fillCrossRef_lcsc (u : BOMRow) (id : String) (h : u "LCSC Part #" = "") :
    fillCrossRef u id "LCSC Part #" = id := by
  unfold fillCrossRef
  split_ifs with hid
  · simp [updateCol]
  · rw [not_not] at hid
    rw [h, hid]

theorem fillCrossRef_jlc (u : BOMRow) (id : String) (h : u "JLCPCB Part #" = "") :
    fillCrossRef u id "JLCPCB Part #" = id := by
  unfold fillCrossRef
  split_ifs with hid
  · simp [updateCol]
  · rw [not_not] at hid
    rw [h, hid]

theorem claim_C6 (row : BOMRow) (res : SourcingResult) (part : PartSearchResult)
    (hres : res.matchedPart = some part)
    (h1 : row "LCSC Part #" = "") (h2 : row "JLCPCB Part #" = "") :
    mergeSourcedData row res "LCSC Part #" = part.lcscPart ∧
    mergeSourcedData row res "JLCPCB Part #" = part.lcscPart ∧
    (mergeSourcedData row res "Manufacturer_Part_Number" =
      if part.manufacturerPartNumber ≠ "" ∧ row "Manufacturer_Part_Number" = "" then
        part.manufacturerPartNumber else row "Manufacturer_Part_Number") ∧
    (mergeSourcedData row res "Manufacturer_Name" =
      if part.manufacturer ≠ "" ∧ row "Manufacturer_Name" = "" then
        part.manufacturer else row "Manufacturer_Name") ∧
    (mergeSourcedData row res "Datasheet" =
      if part.datasheet ≠ "" ∧ row "Datasheet" = "" then
        part.datasheet else row "Datasheet") ∧
    (mergeSourcedData row res "Description" =
      if part.description ≠ "" ∧ row "Description" = "" then
        part.description else row "Description") ∧
    (mergeSourcedData row res "CASE CODE (METRIC)" =
      if part.package ≠ "" ∧ row "CASE CODE (METRIC)" = "" then
        part.package else row "CASE CODE (METRIC)") ∧
    (∀ k, k ∉ (["LCSC Part #", "JLCPCB Part #", "Manufacturer_Part_Number",
        "Manufacturer_Name", "Datasheet", "Description",
        "CASE CODE (METRIC)"] : List String) →
      mergeSourcedData row res k = row k) ∧
    (∀ k, row k ≠ "" → mergeSourcedData row res k = row k) := by
  have hlcsc : mergeSourcedData row res "LCSC Part #" = part.lcscPart := by
    simp only [mergeSourcedData, hres]
    rw [fillIfEmpty_other _ _ _ _ (by decide), fillIfEmpty_other _ _ _ _ (by decide),
      fillIfEmpty_other _ _ _ _ (by decide), fillIfEmpty_other _ _ _ _ (by decide),
      fillIfEmpty_other _ _ _ _ (by decide), fillCrossRef_lcsc _ _ h1]
  have hjlc : mergeSourcedData row res "JLCPCB Part #" = part.lcscPart := by
    simp only [mergeSourcedData, hres]
    rw [fillIfEmpty_other _ _ _ _ (by decide), fillIfEmpty_other _ _ _ _ (by decide),
      fillIfEmpty_other _ _ _ _ (by decide), fillIfEmpty_other _ _ _ _ (by decide),
      fillIfEmpty_other _ _ _ _ (by decide), fillCrossRef_jlc _ _ h2]
  have hmpn : mergeSourcedData row res "Manufacturer_Part_Number" =
      if part.manufacturerPartNumber ≠ "" ∧ row "Manufacturer_Part_Number" = "" then
        part.manufacturerPartNumber else row "Manufacturer_Part_Number" := by
    simp only [mergeSourcedData, hres]
    rw [fillIfEmpty_other _ _ _ _ (by decide), fillIfEmpty_other _ _ _ _ (by decide),
      fillIfEmpty_other _ _ _ _ (by decide), fillIfEmpty_other _ _ _ _ (by decide),
      fillIfEmpty_self, fillCrossRef_other _ _ _ (by decide) (by decide)]
  have hmfr : mergeSourcedData row res "Manufacturer_Name" =
      if part.manufacturer ≠ "" ∧ row "Manufacturer_Name" = "" then
        part.manufacturer else row "Manufacturer_Name" := by
    simp only [mergeSourcedData, hres]
    rw [fillIfEmpty_other _ _ _ _ (by decide), fillIfEmpty_other _ _ _ _ (by decide),
      fillIfEmpty_other _ _ _ _ (by decide), fillIfEmpty_self,
      fillIfEmpty_other _ _ _ _ (by decide), fillCrossRef_other _ _ _ (by decide) (by decide)]
  have hds : mergeSourcedData row res "Datasheet" =
      if part.datasheet ≠ "" ∧ row "Datasheet" = "" then
        part.datasheet else row "Datasheet" := by
    simp only [mergeSourcedData, hres]
    rw [fillIfEmpty_other _ _ _ _ (by decide), fillIfEmpty_other _ _ _ _ (by decide),
      fillIfEmpty_self, fillIfEmpty_other _ _ _ _ (by decide),
      fillIfEmpty_other _ _ _ _ (by decide), fillCrossRef_other _ _ _ (by decide) (by decide)]
  have hdesc : mergeSourcedData row res "Description" =
      if part.description ≠ "" ∧ row "Description" = "" then
        part.description else row "Description" := by
    simp only [mergeSourcedData, hres]
    rw [fillIfEmpty_other _ _ _ _ (by decide), fillIfEmpty_self,
      fillIfEmpty_other _ _ _ _ (by decide), fillIfEmpty_other _ _ _ _ (by decide),
      fillIfEmpty_other _ _ _ _ (by decide), fillCrossRef_other _ _ _ (by decide) (by decide)]
  have hcc : mergeSourcedData row res "CASE CODE (METRIC)" =
      if part.package ≠ "" ∧ row "CASE CODE (METRIC)" = "" then
        part.package else row "CASE CODE (METRIC)" := by
    simp only [mergeSourcedData, hres]
    rw [fillIfEmpty_self, fillIfEmpty_other _ _ _ _ (by decide),
      fillIfEmpty_other _ _ _ _ (by decide), fillIfEmpty_other _ _ _ _ (by decide),
      fillIfEmpty_other _ _ _ _ (by decide), fillCrossRef_other _ _ _ (by decide) (by decide)]
  have hframe : ∀ k, k ∉ (["LCSC Part #", "JLCPCB Part #", "Manufacturer_Part_Number",
      "Manufacturer_Name", "Datasheet", "Description",
      "CASE CODE (METRIC)"] : List String) →
      mergeSourcedData row res k = row k := by
    intro k hk
    simp only [List.mem_cons, List.not_mem_nil, or_false, not_or] at hk
    obtain ⟨n1, n2, n3, n4, n5, n6, n7⟩ := hk
    simp only [mergeSourcedData, hres]
    rw [fillIfEmpty_other _ _ _ _ n7, fillIfEmpty_other _ _ _ _ n6,
      fillIfEmpty_other _ _ _ _ n5, fillIfEmpty_other _ _ _ _ n4,
      fillIfEmpty_other _ _ _ _ n3, fillCrossRef_other _ _ _ n1 n2]
  refine ⟨hlcsc, hjlc, hmpn, hmfr, hds, hdesc, hcc, hframe, ?_⟩
  intro k hne
  by_cases e1 : k = "LCSC Part #"
  · subst e1; exact absurd h1 hne
  by_cases e2 : k = "JLCPCB Part #"
  · subst e2; exact absurd h2 hne
  by_cases e3 : k = "Manufacturer_Part_Number"
  · subst e3; rw [hmpn, if_neg]; rintro ⟨-, hz⟩; exact hne hz
  by_cases e4 : k = "Manufacturer_Name"
  · subst e4; rw [hmfr, if_neg]; rintro ⟨-, hz⟩; exact hne hz
  by_cases e5 : k = "Datasheet"
  · subst e5; rw [hds, if_neg]; rintro ⟨-, hz⟩; exact hne hz
  by_cases e6 : k = "Description"
  · subst e6; rw [hdesc, if_neg]; rintro ⟨-, hz⟩; exact hne hz
  by_cases e7 : k = "CASE CODE (METRIC)"
  · subst e7; rw [hcc, if_neg]; rintro ⟨-, hz⟩; exact hne hz
  exact hframe k (by simp [e1, e2, e3, e4, e5, e6, e7])

/-- A row with an existing manufacturer name but nothing else. -/
def c6WitnessRow : BOMRow := fun k => if k = "Manufacturer_Name" then "ACME" else ""

def c6WitnessPart : PartSearchResult :=
  { supplier := "JLCPCB", manufacturer := "OtherCorp", description := "res 100K",
    lcscPart := "C9" }

def c6WitnessRes : SourcingResult :=
  { originalRow := c6WitnessRow, matchedPart := some c6WitnessPart,
    status := .matched, notes := "" }

/-- Witness for the amended C6 on a concrete row and part. -/
theorem claim_C6_witness :
    mergeSourcedData c6WitnessRow c6WitnessRes "LCSC Part #" = c6WitnessPart.lcscPart ∧
    mergeSourcedData c6WitnessRow c6WitnessRes "JLCPCB Part #" = c6WitnessPart.lcscPart ∧
    (∀ k, c6WitnessRow k ≠ "" → mergeSourcedData c6WitnessRow c6WitnessRes k = c6WitnessRow k) :=
  have h := claim_C6 c6WitnessRow c6WitnessRes c6WitnessPart rfl rfl rfl
  ⟨h.1, h.2.1, h.2.2.2.2.2.2.2.2⟩

/-! ## Adapter error handling

The embedded searches are total functions: every JavaScript exception is
an `Except`/`Option` failure consumed by the embedded `catch`, so "never
throws to the caller" is structural.  The theorems below establish the
observable halves of the claim: empty credentials short-circuit to
`([], 0)` — zero network calls — and transport errors, non-OK responses
and malformed payloads all degrade to the empty list. -/

theorem digiKeyGetAccessToken_fail (c : DigiKeyClientState) (tf : FetchOutcome)
    (hcache : c.accessToken = none ∨ ¬ c.now < c.tokenExpiry)
    (htf : tf = .thrown ∨ ∃ b, tf = .resp false b) :
    ∃ n, digiKeyGetAccessToken c tf = (.error (), n) := by
  have hc : (match c.accessToken with
      | some _ => decide (c.now < c.tokenExpiry) | none => false) = false := by
    rcases hcache with h | h
    · rw [h]
    · cases c.accessToken <;> simp [h]
  unfold digiKeyGetAccessToken
  rw [hc]
  by_cases hcf : digiKeyIsConfigured c
  · rcases htf with rfl | ⟨b, rfl⟩ <;> simp [hcf]
  · simp [hcf]

/-- **C4.** Each adapter search degrades to the empty list on transport
errors, non-OK responses, and malformed payloads, and an unconfigured
distributor adapter returns the empty list with zero network calls. -/
theorem claim_C4 (c : DigiKeyClientState) (tf sf : FetchOutcome) (apiKey : String)
    (f g : FetchOutcome) (params : SearchParams) :
    (digiKeyIsConfigured c = false → digiKeySearch c tf sf params = ([], 0)) ∧
    (apiKey = "" → mouserSearch apiKey f params = ([], 0)) ∧
    ((tf = .thrown ∨ ∃ b, tf = .resp false b) →
      (c.accessToken = none ∨ ¬ c.now < c.tokenExpiry) →
      (digiKeySearch c tf sf params).1 = []) ∧
    ((sf = .thrown ∨ ∃ b, sf = .resp false b) → (digiKeySearch c tf sf params).1 = []) ∧
    (∀ b, sf = .resp true b →
      (∀ xs, jsOr (getField b "Products") (.arr []) ≠ .arr xs) →
      (digiKeySearch c tf sf params).1 = []) ∧
    ((f = .thrown ∨ ∃ b, f = .resp false b) → (mouserSearch apiKey f params).1 = []) ∧
    (∀ b, f = .resp true b →
      (∀ xs, jsOr (getField (getField b "SearchResults") "Parts") (.arr []) ≠ .arr xs) →
      (mouserSearch apiKey f params).1 = []) ∧
    ((g = .thrown ∨ ∃ b, g = .resp false b) → (jlcpcbSearch g params).1 = []) ∧
    (∀ b, g = .resp true b →
      (∀ xs, jsOr (getField b "components") (.arr []) ≠ .arr xs) →
      (jlcpcbSearch g params).1 = []) := by
  refine ⟨?_, ?_, ?_, ?_, ?_, ?_, ?_, ?_, ?_⟩
  · intro h
    simp [digiKeySearch, h]
  · intro h
    simp [mouserSearch, h]
  · intro htf hcache
    by_cases hcf : digiKeyIsConfigured c
    · obtain ⟨n, hn⟩ := digiKeyGetAccessToken_fail c tf hcache htf
      simp [digiKeySearch, hcf, hn]
    · simp [digiKeySearch, Bool.eq_false_iff.mpr hcf]
  · intro hsf
    unfold digiKeySearch
    rcases hsf with rfl | ⟨b, rfl⟩ <;>
      · repeat' split
        all_goals simp_all [apply_ite Prod.fst]
  · intro b hb hprod
    subst hb
    unfold digiKeySearch
    repeat' split
    all_goals simp_all [apply_ite Prod.fst]
  · intro hf
    unfold mouserSearch
    rcases hf with rfl | ⟨b, rfl⟩ <;>
      · repeat' split
        all_goals simp_all [apply_ite Prod.fst]
  · intro b hb hparts
    subst hb
    unfold mouserSearch
    repeat' split
    all_goals simp_all [apply_ite Prod.fst]
  · intro hg
    unfold jlcpcbSearch
    rcases hg with rfl | ⟨b, rfl⟩ <;>
      · repeat' split
        all_goals simp_all [apply_ite Prod.fst]
  · intro b hb hcomp
    subst hb
    unfold jlcpcbSearch
    repeat' split
    all_goals simp_all [apply_ite Prod.fst]

/-- Witness for C4 at concrete configurations and fetch outcomes, covering
unconfigured short-circuits, transport and non-OK failures, and a
malformed (non-array `components`) payload. -/
theorem claim_C4_witness :
    digiKeySearch {} .thrown .thrown {} = ([], 0) ∧
    mouserSearch "" .thrown {} = ([], 0) ∧
    (digiKeySearch { clientId := "id", clientSecret := "secret" } .thrown .thrown
      { value := "100K" }).1 = [] ∧
    (mouserSearch "key" (.resp false .null) { value := "100K" }).1 = [] ∧
    (jlcpcbSearch (.resp true (.obj [("components", .num 1)])) { value := "100K" }).1 = [] :=
  ⟨(claim_C4 {} .thrown .thrown "" .thrown .thrown {}).1 (by decide),
   (claim_C4 {} .thrown .thrown "" .thrown .thrown {}).2.1 rfl,
   (claim_C4 { clientId := "id", clientSecret := "secret" } .thrown .thrown "" .thrown
      .thrown { value := "100K" }).2.2.1 (Or.inl rfl) (Or.inl rfl),
   (claim_C4 {} .thrown .thrown "key" (.resp false .null) .thrown
      { value := "100K" }).2.2.2.2.2.1 (Or.inr ⟨.null, rfl⟩),
   (claim_C4 {} .thrown .thrown "" .thrown (.resp true (.obj [("components", .num 1)]))
      { value := "100K" }).2.2.2.2.2.2.2.2 _ rfl
     (by intro xs h; simp [jsOr, getField, truthy] at h)⟩

end BomSourcing
